import Mathlib

/-!
# Verification of the blog's post pipeline

Shallow embedding of the frontmatter-driven post pipeline of the repository:

* `src/utils/posts.js` — `getPostPaths`, `getParsedPost`, `getSortedPosts`
* `src/utils/feed.js`  — `generateRssFeed`
* `src/pages/blog/index.js` — `getStaticProps` (the pipeline: sort, then feed)

JavaScript strings are modelled as Lean `String`s with hand-rolled,
structurally recursive helpers (so the kernel can evaluate them); the
filesystem is modelled as an explicit list of files; exceptions are
modelled with `Except`; the wall clock consulted by the pipeline is an
explicit parameter.
-/

namespace Blog

/-! ## JavaScript string primitives

Structural-recursion models of the string operations the source uses,
operating on `String.data` so that concrete inputs reduce in the kernel. -/

/-- Whitespace characters recognized by `String.prototype.trim` that can
occur in the inputs at hand. -/
def isWs (c : Char) : Bool :=
  c = ' ' || c = '\t' || c = '\n' || c = '\r'

/-- `trim` on a character list: drop whitespace at both ends. -/
def trimChars (l : List Char) : List Char :=
  ((l.dropWhile isWs).reverse.dropWhile isWs).reverse

/-- JS `s.trim()`. -/
def jsTrim (s : String) : String := ⟨trimChars s.data⟩

/-- Splitting helper: split a character list at every occurrence of `c`.
The accumulator holds the current chunk, reversed. -/
def splitCharAux (c : Char) : List Char → List Char → List (List Char)
  | [], acc => [acc.reverse]
  | x :: xs, acc =>
    if x = c then acc.reverse :: splitCharAux c xs []
    else splitCharAux c xs (x :: acc)

/-- JS `s.split(sep)` for a one-character separator (the source only splits
on `","`; line splitting uses `"\n"`).  Note `"".split(",")` is `[""]`. -/
def jsSplit (s : String) (c : Char) : List String :=
  (splitCharAux c s.data []).map (fun l => ⟨l⟩)

/-- `p` is a prefix of `s` (JS `s.startsWith(p)`). -/
def strStartsWith (p s : String) : Bool := p.data.isPrefixOf s.data

/-- `p` is a suffix of `s` (JS `s.endsWith(p)`). -/
def strSuffix (p s : String) : Bool := p.data.isSuffixOf s.data

/-! ## Frontmatter parsing (the `gray-matter` dependency)

`getParsedPost`/`getSortedPosts` call `matter(raw)` from the `gray-matter`
package with no options, i.e. with the default `---` delimiters and default
YAML engine.  The model below reproduces that default behaviour at the
granularity the corpus exercises: a file opening with a `---` line, a block
of scalar `key: value` lines, a closing `---` line, then the body.  Each
field line is split at its first colon; key and value are trimmed; a value
wrapped in double quotes is unquoted; a line with an empty value (YAML
`null`) or no colon contributes no field (so looking the key up behaves
like JS `undefined`/`null`, which the consumer treats identically: both
throw on `.split`).  A file that does not open with the `---` marker is
returned unchanged as content with an empty data mapping — gray-matter does
not recognize the `+++` TOML dialect used by the repository's parallel Hugo
content tree unless configured to, and `posts.js` does not configure it.

YAML would parse an unquoted `date: 2024-06-01` into a JS `Date` object
rather than a string; both a `Date` and an ISO `yyyy-mm-dd` string compare
identically under the `<` the sort uses, so field values are uniformly
modelled as strings. -/

/-- Result of `matter(raw)`: the parsed frontmatter mapping and the body. -/
structure GrayMatterFile where
  data : List (String × String)
  content : String
deriving DecidableEq

/-- Strip one pair of surrounding double quotes, if present. -/
def stripQuotes (s : String) : String :=
  match s.data with
  | '"' :: rest =>
    if rest.getLast? = some '"' then ⟨rest.take (rest.length - 1)⟩ else s
  | _ => s

/-- Parse one frontmatter line into a field.  Lines without a colon and
lines whose value is empty after trimming (YAML `null`) yield no field. -/
def parseLine (line : String) : Option (String × String) :=
  let key := line.data.takeWhile (fun c => c ≠ ':')
  match line.data.dropWhile (fun c => c ≠ ':') with
  | [] => none
  | _ :: val =>
    if trimChars val = [] then none
    else some (⟨trimChars key⟩, stripQuotes ⟨trimChars val⟩)

/-- Parse the lines between the delimiters. -/
def parseBlock (lines : List String) : List (String × String) :=
  lines.filterMap parseLine

/-- Split the lines after the opening marker at the first closing `---`
line: returns (frontmatter lines, body lines), or `none` if no closing
marker exists. -/
def findClose : List String → Option (List String × List String)
  | [] => none
  | l :: ls =>
    if l = "---" then some ([], ls)
    else (findClose ls).map (fun p => (l :: p.1, p.2))

/-- Re-join body lines (inverse of splitting on newline). -/
def joinLines : List String → String
  | [] => ""
  | [l] => l
  | l :: ls => l ++ "\n" ++ joinLines ls

/-- `matter(raw)` with gray-matter's default options: if the file opens
with the `---` marker on its own line and a closing `---` line follows,
the block between is parsed as scalar YAML fields and the rest is the
body; otherwise the whole file is content and the data mapping is empty. -/
def matter (raw : String) : GrayMatterFile :=
  if strStartsWith "---" raw then
    match jsSplit raw '\n' with
    | first :: rest =>
      if first = "---" then
        match findClose rest with
        | some (fm, body) => ⟨parseBlock fm, joinLines body⟩
        | none => ⟨[], raw⟩
      else ⟨[], raw⟩
    | [] => ⟨[], raw⟩
  else ⟨[], raw⟩

/-- JS property access `parsed.data[k]`: first binding wins. -/
def getField (data : List (String × String)) (k : String) : Option String :=
  (data.find? (fun kv => kv.1 == k)).map (fun kv => kv.2)

/-! ## The posts pipeline (`src/utils/posts.js`)

The `posts/` directory is modelled as an explicit list of files in
enumeration (`readdirSync`) order, each carrying its name and raw
contents.  `readFileSync(path.join("posts", id + ".md"))` inside the map
returns the very file the name was derived from, because `id` is the
filename with its `.md` suffix stripped and only `.md` files survive the
filter. -/

/-- One file of the `posts/` directory: name and raw contents. -/
structure PostFile where
  filename : String
  raw : String
deriving DecidableEq

/-- The runtime errors this code can throw: the only throwing operation in
the pipeline is calling `.split` on a JS `undefined`/`null` value. -/
inductive JsError where
  | typeError (msg : String)
deriving DecidableEq

/-- The record `getSortedPosts` builds per post.  `date`, `title` and
`summary` are plain property reads, so a missing field yields JS
`undefined`, modelled as `none`. -/
structure Post where
  id : String
  date : Option String
  title : Option String
  summary : Option String
  tags : List String
  thumbnail : String
deriving DecidableEq

/-- `filename.replace(/\.md$/, "")`. -/
def stripMd (filename : String) : String :=
  if strSuffix ".md" filename then
    ⟨filename.data.take (filename.data.length - 3)⟩
  else filename

/-- `getPostPaths`: enumerate the directory and keep the `.md` files. -/
def getPostPaths (files : List PostFile) : List PostFile :=
  files.filter (fun f => strSuffix ".md" f.filename)

/-- Fallback used when `thumbnail` is falsy. -/
def fallbackThumbnail : String := "/images/clouds.jpeg"

/-- `thumbnail ? thumbnail : "/images/clouds.jpeg"` — a missing property
(JS `undefined`) and the empty string are both falsy. -/
def jsThumb : Option String → String
  | some t => if t = "" then fallbackThumbnail else t
  | none => fallbackThumbnail

/-- The body of the arrow function `getSortedPosts` maps over the
filenames: parse the file, read the metadata properties, split the tags,
default the thumbnail.  `parsed.data.tags.split(",")` throws a `TypeError`
when `tags` is `undefined` (or `null`); an empty JS string is falsy, hence
the `t = ""` test in the thumbnail default. -/
def buildPost (f : PostFile) : Except JsError Post :=
  let id := stripMd f.filename
  let parsed := matter f.raw
  let date := getField parsed.data "date"
  let title := getField parsed.data "title"
  let summary := getField parsed.data "summary"
  match getField parsed.data "tags" with
  | none =>
    .error (.typeError "Cannot read properties of undefined (reading 'split')")
  | some tagStr =>
    let tags := (jsSplit tagStr ',').map jsTrim
    let thumbnail := jsThumb (getField parsed.data "thumbnail")
    .ok { id := id, date := date, title := title, summary := summary,
          tags := tags, thumbnail := thumbnail }

/-! ## The sort

The comparator is `(a, b) => (a.date < b.date ? 1 : -1)`.  JS `<` on two
strings is lexicographic; any comparison involving `undefined` is `false`.

This comparator never returns `0`, so it is not a *consistent comparison
function* in the sense of ECMA-262 §23.1.3.30 (for equal dates it answers
`-1` in both directions), and the standard leaves the resulting order
implementation-defined.  The site is built by Next.js on Node.js, whose
engine (V8) implements `Array.prototype.sort` as TimSort.  For arrays
shorter than 64 elements (the blog's corpus, and every corpus quantified
over below) V8 computes one initial run — reversing it in place when the
first two elements compare as descending, extending the run while adjacent
elements keep comparing the same way — and then inserts each remaining
element with a binary search for the leftmost position `i` of the sorted
prefix with `cmp(pivot, prefix[i]) < 0`.  Over a prefix that is sorted for
the queries the algorithm makes, that predicate is monotone along the
prefix, so the binary search coincides with the linear left-insertion
modelled by `binInsert`. -/

/-- Lexicographic `<` on character lists, comparing code points (JS
compares UTF-16 code units; the two orders agree on the inputs at hand). -/
def charListLt : List Char → List Char → Bool
  | _, [] => false
  | [], _ :: _ => true
  | a :: as, b :: bs =>
    if a.toNat < b.toNat then true
    else if b.toNat < a.toNat then false
    else charListLt as bs

/-- JS `a < b` on two strings. -/
def strLt (a b : String) : Bool := charListLt a.data b.data

/-- JS `a < b` on two optional strings (`undefined` compares false). -/
def jsLt : Option String → Option String → Bool
  | some a, some b => strLt a b
  | _, _ => false

/-- The comparator passed to `.sort` in `getSortedPosts`. -/
def cmpPosts (a b : Post) : Int := if jsLt a.date b.date then 1 else -1

/-- Insert at the leftmost position where `cmp p q < 0` (V8's binary
insertion, linearized; see the section comment). -/
def binInsert (cmp : α → α → Int) (p : α) : List α → List α
  | [] => [p]
  | q :: qs => if cmp p q < 0 then p :: q :: qs else q :: binInsert cmp p qs

/-- V8's initial-run detection: extend the run while each next element
compares below (descending run) resp. not below (ascending run) its
predecessor; returns the run tail and the unconsumed rest. -/
def takeRun (cmp : α → α → Int) : Bool → α → List α → List α × List α
  | _, _, [] => ([], [])
  | true, prev, x :: xs =>
    if cmp x prev < 0 then
      let p := takeRun cmp true x xs
      (x :: p.1, p.2)
    else ([], x :: xs)
  | false, prev, x :: xs =>
    if 0 ≤ cmp x prev then
      let p := takeRun cmp false x xs
      (x :: p.1, p.2)
    else ([], x :: xs)

/-- V8's `Array.prototype.sort` on a short (< 64 elements) array: one
`CountAndMakeRun` (a run detected as descending is reversed in place),
then binary insertion of every remaining element. -/
def v8sort (cmp : α → α → Int) : List α → List α
  | [] => []
  | [a] => [a]
  | a :: b :: rest =>
    if cmp b a < 0 then
      let p := takeRun cmp true b rest
      p.2.foldl (fun acc x => binInsert cmp x acc) (a :: b :: p.1).reverse
    else
      let p := takeRun cmp false b rest
      p.2.foldl (fun acc x => binInsert cmp x acc) (a :: b :: p.1)

/-- JS `Array.prototype.map`: runs the function left to right and lets the
first exception propagate. -/
def mapExcept (g : α → Except ε β) : List α → Except ε (List β)
  | [] => .ok []
  | x :: xs => do
    let y ← g x
    let ys ← mapExcept g xs
    return y :: ys

/-- `getSortedPosts`: enumerate, build each record, then sort. -/
def getSortedPosts (files : List PostFile) : Except JsError (List Post) := do
  let posts ← mapExcept buildPost (getPostPaths files)
  return v8sort cmpPosts posts

/-! ## The feed emitter (`src/utils/feed.js`)

`generateRssFeed` builds a `Feed` (the `feed` npm package) from a config
literal, adds one item per post with `forEach`, and writes `feed.rss2()`,
`feed.json1()` and `feed.atom1()` to three fixed paths, in that order.

Each item carries `date: new Date(post.date)`.  When the record's date is
`undefined` (missing field) or an unparseable string, that `Date` is an
*Invalid Date*.  `Date.prototype.toUTCString` on an Invalid Date returns
the string `"Invalid Date"`, so `rss2()` (which formats `item.date` with
`toUTCString`) never throws; `Date.prototype.toISOString` throws a
`RangeError: Invalid time value`, so `json1()` and `atom1()` (which format
`item.date` with `toISOString` — a `Date` object is truthy, so `json1`'s
`if (item.date)` guard never skips it) throw on an Invalid Date.  The
write sequence therefore aborts after `rss.xml` when any post's date is
invalid; the exception escapes the (unawaited) async function and fails
the build.  `generateRssFeed`'s result is modelled as a `FeedRun`:
the files actually written plus the aborting exception, if any.

The pipeline consults the wall clock in two places, so the clock is an
explicit parameter `now`:
* the config's copyright string interpolates `new Date().getFullYear()`;
* the `feed` package stamps the RSS `<lastBuildDate>` and the Atom
  `<updated>` element with `options.updated || new Date()`, and
  `options.updated` is never set here.

The package renders items in insertion order in all three formats (no
resort, no deduplication); the serializers are modelled as structured
documents (`Rss2Doc`, `AtomDoc`, `JsonDoc`) plus renderers to strings that
lay the fields out in the package's element order, simplified to the
fields this pipeline populates. -/

/-- The wall clock as the pipeline observes it. -/
structure Clock where
  /-- `new Date().getFullYear()` -/
  year : Nat
  /-- the serialized current instant, as stamped into RSS/Atom -/
  utcString : String
deriving DecidableEq

/-- The config object literal passed to `new Feed(...)`. -/
structure FeedConfig where
  title : String
  description : String
  id : String
  link : String
  favicon : String
  copyright : String
  rss2Link : String
  jsonLink : String
  atomLink : String
deriving DecidableEq

/-- A JS `Date` value: either an Invalid Date or a valid timestamp,
carried as the `yyyy-mm-dd` string it was parsed from. -/
inductive JsDate where
  | invalid
  | valid (ymd : String)
deriving DecidableEq

/-- ASCII digit test. -/
def isDigit (c : Char) : Bool :=
  Nat.ble 48 c.toNat && Nat.ble c.toNat 57

/-- Does the string have the ISO-8601 calendar-date shape `yyyy-mm-dd`?
`new Date(s)` in V8 accepts further formats (full ISO timestamps, RFC 2822
dates); the corpus only ever uses this shape, and the model classifies
everything else — in particular `"not-a-date"`, which real JS also rejects
— as unparseable. -/
def isIsoDate (s : String) : Bool :=
  match s.data with
  | [y1, y2, y3, y4, '-', m1, m2, '-', d1, d2] =>
    isDigit y1 && isDigit y2 && isDigit y3 && isDigit y4 &&
      isDigit m1 && isDigit m2 && isDigit d1 && isDigit d2
  | _ => false

/-- `new Date(x)` for the optional date string of a record: `undefined`
and unparseable strings give an Invalid Date. -/
def jsNewDate : Option String → JsDate
  | none => .invalid
  | some s => if isIsoDate s then .valid s else .invalid

/-- `date.toUTCString()`: the string `"Invalid Date"` for an Invalid Date
(never throws); for a valid date, a string determined by the timestamp
(the weekday/month-name formatting is abbreviated here — only which dates
it distinguishes matters to the claims). -/
def utcStringOf : JsDate → String
  | .invalid => "Invalid Date"
  | .valid ymd => ymd ++ " 00:00:00 GMT"

/-- The exception a feed serializer can raise. -/
inductive FeedError where
  | rangeError (msg : String)
deriving DecidableEq

/-- `date.toISOString()`: throws `RangeError: Invalid time value` on an
Invalid Date; a date-only ISO string parses as UTC midnight. -/
def isoStringOf : JsDate → Except FeedError String
  | .invalid => .error (.rangeError "Invalid time value")
  | .valid ymd => .ok (ymd ++ "T00:00:00.000Z")

/-- The argument object of each `feed.addItem({...})` call. -/
structure FeedItemInput where
  title : Option String
  id : String
  link : String
  description : Option String
  /-- `new Date(post.date)` -/
  date : JsDate
deriving DecidableEq

/-- The `Feed` object: options plus the items added so far. -/
structure Feed where
  options : FeedConfig
  items : List FeedItemInput
deriving DecidableEq

/-- `feed.addItem(item)` appends to the item list. -/
def Feed.addItem (f : Feed) (i : FeedItemInput) : Feed :=
  { f with items := f.items ++ [i] }

/-- One `<item>` of the RSS 2.0 document. -/
structure Rss2Entry where
  title : Option String
  link : String
  guid : String
  pubDate : JsDate
  description : Option String
deriving DecidableEq

/-- The RSS 2.0 document. -/
structure Rss2Doc where
  title : String
  link : String
  description : String
  lastBuildDate : String
  copyright : String
  entries : List Rss2Entry
deriving DecidableEq

/-- One `<entry>` of the Atom document. -/
structure AtomEntry where
  title : Option String
  id : String
  link : String
  updated : JsDate
  summary : Option String
deriving DecidableEq

/-- The Atom document. -/
structure AtomDoc where
  id : String
  title : String
  updated : String
  link : String
  rights : String
  entries : List AtomEntry
deriving DecidableEq

/-- One element of the JSON-Feed `items` array. -/
structure JsonItem where
  id : String
  url : String
  title : Option String
  summary : Option String
  /-- `feed@4`'s `json1()` emits `item.date` under the `date_modified` key -/
  date_modified : JsDate
deriving DecidableEq

/-- The JSON-Feed document.  It carries no build timestamp and no
copyright field. -/
structure JsonDoc where
  version : String
  title : String
  home_page_url : String
  feed_url : String
  description : String
  items : List JsonItem
deriving DecidableEq

/-- How `rss2()` renders one added item: the package uses `entry.guid`,
falling back to `entry.id` (set here), for the `<guid>` element. -/
def rss2EntryOf (i : FeedItemInput) : Rss2Entry :=
  { title := i.title, link := i.link, guid := i.id,
    pubDate := i.date, description := i.description }

/-- How `atom1()` renders one added item: `<id>` is `entry.id`. -/
def atomEntryOf (i : FeedItemInput) : AtomEntry :=
  { title := i.title, id := i.id, link := i.link,
    updated := i.date, summary := i.description }

/-- How `json1()` renders one added item: `id` is `entry.id`, `url` is
`entry.link`. -/
def jsonItemOf (i : FeedItemInput) : JsonItem :=
  { id := i.id, url := i.link, title := i.title,
    summary := i.description, date_modified := i.date }

/-- `feed.rss2()` as a structured document. -/
def Feed.rss2Doc (f : Feed) (now : Clock) : Rss2Doc :=
  { title := f.options.title, link := f.options.link,
    description := f.options.description,
    lastBuildDate := now.utcString, copyright := f.options.copyright,
    entries := f.items.map rss2EntryOf }

/-- `feed.atom1()` as a structured document. -/
def Feed.atom1Doc (f : Feed) (now : Clock) : AtomDoc :=
  { id := f.options.id, title := f.options.title,
    updated := now.utcString, link := f.options.link,
    rights := f.options.copyright,
    entries := f.items.map atomEntryOf }

/-- `feed.json1()` as a structured document. -/
def Feed.json1Doc (f : Feed) : JsonDoc :=
  { version := "https://jsonfeed.org/version/1", title := f.options.title,
    home_page_url := f.options.link, feed_url := f.options.jsonLink,
    description := f.options.description,
    items := f.items.map jsonItemOf }

/-- Render an optional element. -/
def optTag (tag : String) : Option String → String
  | none => ""
  | some v => "<" ++ tag ++ ">" ++ v ++ "</" ++ tag ++ ">"

/-- Serialize one RSS `<item>`. -/
def renderRss2Entry (e : Rss2Entry) : String :=
  "<item>" ++ optTag "title" e.title ++ "<link>" ++ e.link ++ "</link>" ++
    "<guid>" ++ e.guid ++ "</guid>" ++
    "<pubDate>" ++ utcStringOf e.pubDate ++ "</pubDate>" ++
    optTag "description" e.description ++ "</item>"

/-- Serialize the RSS 2.0 document (fields in the package's layout,
restricted to those this pipeline populates). -/
def renderRss2 (d : Rss2Doc) : String :=
  "<rss version=\"2.0\"><channel><title>" ++ d.title ++ "</title><link>" ++
    d.link ++ "</link><description>" ++ d.description ++
    "</description><lastBuildDate>" ++ d.lastBuildDate ++
    "</lastBuildDate><copyright>" ++ d.copyright ++ "</copyright>" ++
    String.join (d.entries.map renderRss2Entry) ++ "</channel></rss>"

/-- Serialize one Atom `<entry>`: `atom1()` formats `item.date` with
`toISOString()` unconditionally, so an entry with an Invalid Date throws
a `RangeError`. -/
def renderAtomEntry (e : AtomEntry) : Except FeedError String :=
  match isoStringOf e.updated with
  | .error err => .error err
  | .ok iso =>
    .ok ("<entry>" ++ optTag "title" e.title ++ "<id>" ++ e.id ++ "</id>" ++
      "<link href=\"" ++ e.link ++ "\"/><updated>" ++ iso ++ "</updated>" ++
      optTag "summary" e.summary ++ "</entry>")

/-- Serialize the Atom document; propagates the first entry exception. -/
def renderAtom (d : AtomDoc) : Except FeedError String :=
  match mapExcept renderAtomEntry d.entries with
  | .error err => .error err
  | .ok entries =>
    .ok ("<feed xmlns=\"http://www.w3.org/2005/Atom\"><id>" ++ d.id ++
      "</id><title>" ++ d.title ++ "</title><updated>" ++ d.updated ++
      "</updated><link href=\"" ++ d.link ++ "\"/><rights>" ++ d.rights ++
      "</rights>" ++ String.join entries ++ "</feed>")

/-- Serialize one JSON-Feed item: `json1()` guards with `if (item.date)`,
but a `Date` object — Invalid or not — is truthy, so `toISOString()` runs
on every item and throws on an Invalid Date. -/
def renderJsonItem (i : JsonItem) : Except FeedError String :=
  match isoStringOf i.date_modified with
  | .error err => .error err
  | .ok iso =>
    .ok ("\x7b\"id\":\"" ++ i.id ++ "\",\"url\":\"" ++ i.url ++ "\"" ++
      (match i.title with
       | none => "" | some t => ",\"title\":\"" ++ t ++ "\"") ++
      (match i.summary with
       | none => "" | some s => ",\"summary\":\"" ++ s ++ "\"") ++
      ",\"date_modified\":\"" ++ iso ++ "\"\x7d")

/-- Serialize the JSON-Feed document; propagates the first item
exception. -/
def renderJson (d : JsonDoc) : Except FeedError String :=
  match mapExcept renderJsonItem d.items with
  | .error err => .error err
  | .ok items =>
    .ok ("\x7b\"version\":\"" ++ d.version ++ "\",\"title\":\"" ++ d.title ++
      "\",\"home_page_url\":\"" ++ d.home_page_url ++ "\",\"feed_url\":\"" ++
      d.feed_url ++ "\",\"description\":\"" ++ d.description ++
      "\",\"items\":[" ++ String.intercalate "," items ++ "]\x7d")

/-- The outcome of one `generateRssFeed` run: which of `public/rss.xml`,
`public/rss.json`, `public/atom.xml` were written (in that order), and
the exception that aborted the sequence, if any.  The exception escapes
the unawaited async function and fails the build. -/
structure FeedRun where
  rssXml : Option String
  rssJson : Option String
  atomXml : Option String
  error : Option FeedError
deriving DecidableEq

/-- The `FeedItemInput` built from one post in the `forEach`. -/
def itemOfPost (url : String) (post : Post) : FeedItemInput :=
  { title := post.title,
    id := url ++ "/blog/" ++ post.id,
    link := url ++ "/blog/" ++ post.id,
    description := post.summary,
    date := jsNewDate post.date }

/-- The `Feed` built by `generateRssFeed` before serialization, with the
base URL (`const url = "https://aazuspan.dev"` in the source) abstracted
as a parameter. -/
def buildFeed (url : String) (posts : List Post) (now : Clock) : Feed :=
  let config : FeedConfig :=
    { title := "Blog - Aaron Zuspan",
      description := "Blog posts on geospatial tech.",
      id := url, link := url,
      favicon := url ++ "/favicon.ico",
      copyright := "All rights reserved " ++ toString now.year ++
        ", Aaron Zuspan",
      rss2Link := url ++ "/rss.xml", jsonLink := url ++ "/rss.json",
      atomLink := url ++ "/atom.xml" }
  posts.foldl (fun f post => f.addItem (itemOfPost url post))
    { options := config, items := [] }

/-- `generateRssFeed(posts)` with the base URL abstracted: build the feed,
serialize it three ways, write the three files. -/
def generateRssFeedWith (url : String) (posts : List Post) (now : Clock) :
    FeedRun :=
  let feed := buildFeed url posts now
  let xml := renderRss2 (feed.rss2Doc now)
  match renderJson feed.json1Doc with
  | .error e =>
    { rssXml := some xml, rssJson := none, atomXml := none, error := some e }
  | .ok json =>
    match renderAtom (feed.atom1Doc now) with
    | .error e =>
      { rssXml := some xml, rssJson := some json, atomXml := none,
        error := some e }
    | .ok atom =>
      { rssXml := some xml, rssJson := some json, atomXml := some atom,
        error := none }

/-- `generateRssFeed(posts)` as in the source, with its hardcoded URL. -/
def generateRssFeed (posts : List Post) (now : Clock) : FeedRun :=
  generateRssFeedWith "https://aazuspan.dev" posts now

/-- `getStaticProps` of `src/pages/blog/index.js`: the full pipeline,
`getSortedPosts` then `generateRssFeed`.  No feed file is written when
`getSortedPosts` throws; otherwise the result records the write sequence's
outcome. -/
def buildBlogIndex (files : List PostFile) (now : Clock) :
    Except JsError FeedRun := do
  let posts ← getSortedPosts files
  return generateRssFeed posts now

/-! ## Concrete corpora used by the claims -/

/-- Three files enumerated in order `a.md`, `b.md`, `c.md`, dated
2024-01-01, 2024-06-01, 2024-06-01, titled `A`, `B`, `C` (the spec's sort
scenario). -/
def c1FileA : PostFile :=
  ⟨"a.md",
   "---\ntitle: \"A\"\ndate: \"2024-01-01\"\nsummary: \"sa\"\ntags: \"x\"\n---\nbody a"⟩

def c1FileB : PostFile :=
  ⟨"b.md",
   "---\ntitle: \"B\"\ndate: \"2024-06-01\"\nsummary: \"sb\"\ntags: \"x\"\n---\nbody b"⟩

def c1FileC : PostFile :=
  ⟨"c.md",
   "---\ntitle: \"C\"\ndate: \"2024-06-01\"\nsummary: \"sc\"\ntags: \"x\"\n---\nbody c"⟩

/-- The scenario corpus, in enumeration order. -/
def c1Files : List PostFile := [c1FileA, c1FileB, c1FileC]

/-- A record whose date string is unparseable: `new Date` on it gives an
Invalid Date. -/
def invalidDatePost : Post :=
  { id := "bad", date := some "not-a-date", title := some "T",
    summary := some "s", tags := ["x"], thumbnail := fallbackThumbnail }

/-- A file whose frontmatter has no `tags` field at all. -/
def noTagsFile : PostFile :=
  ⟨"notags.md",
   "---\ntitle: \"N\"\ndate: \"2024-05-05\"\nsummary: \"s\"\n---\nbody"⟩

/-- A file whose `date` value is not a parseable calendar date. -/
def badDateFile : PostFile :=
  ⟨"bad.md",
   "---\ntitle: \"T\"\ndate: \"not-a-date\"\nsummary: \"s\"\ntags: \"x\"\n---\n"⟩

/-- A file with `tags: "python, til"`. -/
def tagsFile : PostFile :=
  ⟨"t.md", "---\ntitle: \"T\"\ntags: \"python, til\"\n---\n"⟩

/-- A file with an empty `tags` value. -/
def emptyTagsFile : PostFile :=
  ⟨"e.md", "---\ntitle: \"E\"\ntags: \"\"\n---\n"⟩

/-- The spec §6 sample input in its plus-delimited dialect. -/
def plusFile : String :=
  "+++\ntitle: \"Post\"\ndate: \"2024-08-30\"\n+++\nThe body"

/-- The same fields in the three-dash dialect with quoted values. -/
def dashQuoted : String :=
  "---\ntitle: \"Post\"\ndate: \"2024-08-30\"\n---\nThe body"

/-- The same fields in the three-dash dialect with unquoted values. -/
def dashUnquoted : String :=
  "---\ntitle: Post\ndate: 2024-08-30\n---\nThe body"

/-- A clock reading used where a build time is needed. -/
def buildClock : Clock := ⟨2024, "Mon, 01 Jan 2024 00:00:00 GMT"⟩

/-- The records the scenario corpus builds, as sorted by the pipeline:
both June posts before the January post, and the June posts in *reverse*
enumeration order. -/
def c1PostA : Post :=
  { id := "a", date := some "2024-01-01", title := some "A",
    summary := some "sa", tags := ["x"], thumbnail := "/images/clouds.jpeg" }

def c1PostB : Post :=
  { id := "b", date := some "2024-06-01", title := some "B",
    summary := some "sb", tags := ["x"], thumbnail := "/images/clouds.jpeg" }

def c1PostC : Post :=
  { id := "c", date := some "2024-06-01", title := some "C",
    summary := some "sc", tags := ["x"], thumbnail := "/images/clouds.jpeg" }

/-- The output order of the scenario corpus. -/
def c1Sorted : List Post := [c1PostC, c1PostB, c1PostA]

/-- The feed-entry URL the design assigns to a post. -/
def entryUrl (url : String) (p : Post) : String := url ++ "/blog/" ++ p.id

/-- A record with identifier `foo` (the spec's feed scenario). -/
def fooPost : Post :=
  { id := "foo", date := some "2024-08-30", title := some "Foo",
    summary := some "s", tags := [], thumbnail := fallbackThumbnail }

/-- Two clock readings five seconds apart within the same year, and a
second name for the first reading. -/
def clockT1 : Clock := ⟨2024, "Mon, 01 Jan 2024 00:00:00 GMT"⟩

def clockT2 : Clock := ⟨2024, "Mon, 01 Jan 2024 00:00:05 GMT"⟩

def clockT1B : Clock := ⟨2024, "Mon, 01 Jan 2024 00:00:00 GMT"⟩

/-! ## Helper lemmas -/

theorem getSortedPosts_eq (files : List PostFile) :
    getSortedPosts files =
      match mapExcept buildPost (getPostPaths files) with
      | .error e => .error e
      | .ok posts => .ok (v8sort cmpPosts posts) := by
  unfold getSortedPosts
  cases mapExcept buildPost (getPostPaths files) <;> rfl

theorem buildPost_err (f : PostFile)
    (h : getField (matter f.raw).data "tags" = none) :
    buildPost f =
      .error (.typeError
        "Cannot read properties of undefined (reading 'split')") := by
  simp only [buildPost, h]

theorem buildPost_ok (f : PostFile) (t : String)
    (h : getField (matter f.raw).data "tags" = some t) :
    buildPost f = .ok
      { id := stripMd f.filename,
        date := getField (matter f.raw).data "date",
        title := getField (matter f.raw).data "title",
        summary := getField (matter f.raw).data "summary",
        tags := (jsSplit t ',').map jsTrim,
        thumbnail := jsThumb (getField (matter f.raw).data "thumbnail") } := by
  simp only [buildPost, h]

theorem mapExcept_ok_iff (g : α → Except ε β) (l : List α) :
    (mapExcept g l).toOption.isSome = true ↔
      ∀ x ∈ l, (g x).toOption.isSome = true := by
  induction l with
  | nil =>
    constructor
    · intro _ x hx; cases hx
    · intro _; rfl
  | cons x xs ih =>
    cases hx : g x with
    | error e =>
      have hm : mapExcept g (x :: xs) = .error e := by
        simp only [mapExcept, hx]; rfl
      constructor
      · intro h; rw [hm] at h; simp [Except.toOption] at h
      · intro h
        have hx' := h x (List.mem_cons_self x xs)
        rw [hx] at hx'
        simp [Except.toOption] at hx'
    | ok y =>
      cases hxs : mapExcept g xs with
      | error e =>
        have hm : mapExcept g (x :: xs) = .error e := by
          simp only [mapExcept, hx, hxs]; rfl
        rw [hxs] at ih
        constructor
        · intro h; rw [hm] at h; simp [Except.toOption] at h
        · intro h
          have hxs' : ∀ z ∈ xs, (g z).toOption.isSome = true :=
            fun z hz => h z (List.mem_cons_of_mem x hz)
          have hcontra := ih.mpr hxs'
          simp [Except.toOption] at hcontra
      | ok ys =>
        have hm : mapExcept g (x :: xs) = .ok (y :: ys) := by
          simp only [mapExcept, hx, hxs]; rfl
        rw [hm]
        rw [hxs] at ih
        constructor
        · intro _ z hz
          rcases List.mem_cons.mp hz with rfl | hz'
          · rw [hx]; rfl
          · exact ih.mp rfl z hz'
        · intro _; rfl

theorem mapExcept_err (g : α → Except ε β) (l : List α) (x : α)
    (hx : x ∈ l) (he : (g x).toOption = none) :
    (mapExcept g l).toOption = none := by
  cases h' : (mapExcept g l).toOption with
  | none => rfl
  | some v =>
    have hs : (mapExcept g l).toOption.isSome = true := by rw [h']; rfl
    have := (mapExcept_ok_iff g l).mp hs x hx
    rw [he] at this
    exact absurd this (by simp)

/-! ## Order lemmas for the sort

`dateGe a b` says `a` does not sort strictly after `b`: descending date
order, with a JS twist — any comparison against an `undefined` date is
false, so `dateGe` is only transitive across records that all carry a
date. -/

/-- `a.date` is not below `b.date` under the JS `<`. -/
def dateGe (a b : Post) : Prop := jsLt a.date b.date = false

theorem cmp_lt_iff (a b : Post) :
    cmpPosts a b < 0 ↔ jsLt a.date b.date = false := by
  unfold cmpPosts
  cases h : jsLt a.date b.date <;> simp

theorem cmp_ge_iff (a b : Post) :
    0 ≤ cmpPosts a b ↔ jsLt a.date b.date = true := by
  unfold cmpPosts
  cases h : jsLt a.date b.date <;> simp

theorem charListLt_trans (l1 : List Char) : ∀ (l2 l3 : List Char),
    charListLt l1 l2 = true → charListLt l2 l3 = true →
    charListLt l1 l3 = true := by
  induction l1 with
  | nil =>
    intro l2 l3 h1 h2
    cases l2 with
    | nil => exact h2
    | cons b bs =>
      cases l3 with
      | nil => simp [charListLt] at h2
      | cons c cs => rfl
  | cons a as ih =>
    intro l2 l3 h1 h2
    cases l2 with
    | nil => simp [charListLt] at h1
    | cons b bs =>
      cases l3 with
      | nil => simp [charListLt] at h2
      | cons c cs =>
        simp only [charListLt] at h1 h2 ⊢
        rcases Nat.lt_trichotomy a.toNat b.toNat with hab | hab | hab
        · rcases Nat.lt_trichotomy b.toNat c.toNat with hbc | hbc | hbc
          · simp [Nat.lt_trans hab hbc]
          · simp [hbc ▸ hab]
          · rw [if_neg (Nat.lt_asymm hbc), if_pos hbc] at h2
            exact absurd h2 (by simp)
        · rw [if_neg (by omega), if_neg (by omega)] at h1
          rcases Nat.lt_trichotomy b.toNat c.toNat with hbc | hbc | hbc
          · simp [hab ▸ hbc]
          · rw [if_neg (by omega), if_neg (by omega)] at h2
            rw [if_neg (by omega), if_neg (by omega)]
            exact ih bs cs h1 h2
          · rw [if_neg (Nat.lt_asymm hbc), if_pos hbc] at h2
            exact absurd h2 (by simp)
        · rw [if_neg (Nat.lt_asymm hab), if_pos hab] at h1
          exact absurd h1 (by simp)

theorem charListLt_asymm (l1 : List Char) : ∀ (l2 : List Char),
    charListLt l1 l2 = true → charListLt l2 l1 = false := by
  induction l1 with
  | nil =>
    intro l2 h
    cases l2 with
    | nil => simp [charListLt] at h
    | cons b bs => rfl
  | cons a as ih =>
    intro l2 h
    cases l2 with
    | nil => simp [charListLt] at h
    | cons b bs =>
      simp only [charListLt] at h ⊢
      rcases Nat.lt_trichotomy a.toNat b.toNat with hab | hab | hab
      · rw [if_neg (Nat.lt_asymm hab), if_pos hab]
      · rw [if_neg (by omega), if_neg (by omega)] at h
        rw [if_neg (by omega), if_neg (by omega)]
        exact ih bs h
      · rw [if_neg (Nat.lt_asymm hab), if_pos hab] at h
        exact absurd h (by simp)

theorem charListLt_false_trans (l1 : List Char) : ∀ (l2 l3 : List Char),
    charListLt l1 l2 = false → charListLt l2 l3 = false →
    charListLt l1 l3 = false := by
  induction l1 with
  | nil =>
    intro l2 l3 h1 h2
    cases l3 with
    | nil => rfl
    | cons c cs =>
      cases l2 with
      | nil => simp [charListLt] at h2
      | cons b bs => simp [charListLt] at h1
  | cons a as ih =>
    intro l2 l3 h1 h2
    cases l3 with
    | nil => rfl
    | cons c cs =>
      cases l2 with
      | nil => simp [charListLt] at h2
      | cons b bs =>
        simp only [charListLt] at h1 h2 ⊢
        have hba : ¬ a.toNat < b.toNat := by
          intro hab
          rw [if_pos hab] at h1
          exact absurd h1 (by simp)
        have hcb : ¬ b.toNat < c.toNat := by
          intro hbc
          rw [if_pos hbc] at h2
          exact absurd h2 (by simp)
        rcases Nat.lt_trichotomy a.toNat c.toNat with hac | hac | hac
        · omega
        · rw [if_neg (by omega), if_neg (by omega)]
          rcases Nat.lt_trichotomy b.toNat a.toNat with hba' | hba' | hba'
          · omega
          · rw [if_neg (by omega), if_neg (by omega)] at h1
            rw [if_neg (by omega), if_neg (by omega)] at h2
            exact ih bs cs h1 h2
          · omega
        · rw [if_neg (Nat.lt_asymm hac), if_pos hac]

theorem jsLt_trans {a b c : Option String}
    (h1 : jsLt a b = true) (h2 : jsLt b c = true) : jsLt a c = true := by
  cases a <;> cases b <;> cases c <;> simp [jsLt, strLt] at *
  exact charListLt_trans _ _ _ h1 h2

theorem jsLt_asymm {a b : Option String} (h : jsLt a b = true) :
    jsLt b a = false := by
  cases a <;> cases b <;> simp [jsLt, strLt] at *
  exact charListLt_asymm _ _ h

theorem jsLt_false_trans {a b c : Option String}
    (ha : a.isSome = true) (hb : b.isSome = true) (hc : c.isSome = true)
    (h1 : jsLt a b = false) (h2 : jsLt b c = false) : jsLt a c = false := by
  obtain ⟨x, rfl⟩ := Option.isSome_iff_exists.mp ha
  obtain ⟨y, rfl⟩ := Option.isSome_iff_exists.mp hb
  obtain ⟨z, rfl⟩ := Option.isSome_iff_exists.mp hc
  simp [jsLt, strLt] at *
  exact charListLt_false_trans _ _ _ h1 h2

/-- A chain whose relation is transitive over the elements at hand is
pairwise. -/
theorem pairwise_of_chain' {α : Type u} {R : α → α → Prop} :
    ∀ l : List α, List.Chain' R l →
      (∀ a ∈ l, ∀ b ∈ l, ∀ c ∈ l, R a b → R b c → R a c) →
      List.Pairwise R l
  | [], _, _ => List.Pairwise.nil
  | [_], _, _ => List.pairwise_singleton _ _
  | a :: b :: t, hch, htr => by
    have hab : R a b := (List.chain'_cons.mp hch).1
    have hrest : List.Pairwise R (b :: t) :=
      pairwise_of_chain' (b :: t) (List.chain'_cons.mp hch).2
        (fun x hx y hy z hz =>
          htr x (List.mem_cons_of_mem a hx) y (List.mem_cons_of_mem a hy)
            z (List.mem_cons_of_mem a hz))
    refine List.pairwise_cons.mpr ⟨?_, hrest⟩
    intro x hx
    rcases List.mem_cons.mp hx with rfl | hx'
    · exact hab
    · have hbx : R b x := (List.pairwise_cons.mp hrest).1 x hx'
      exact htr a (List.mem_cons_self a _)
        b (List.mem_cons_of_mem a (List.mem_cons_self b _))
        x (List.mem_cons_of_mem a (List.mem_cons_of_mem b hx')) hab hbx

theorem takeRun_append (cmp : α → α → Int) (d : Bool) :
    ∀ (l : List α) (prev : α),
      (takeRun cmp d prev l).1 ++ (takeRun cmp d prev l).2 = l := by
  cases d <;>
    · intro l
      induction l with
      | nil => intro prev; rfl
      | cons x xs ih =>
        intro prev
        simp only [takeRun]
        split <;> simp [ih]

theorem takeRun_chain_desc (cmp : α → α → Int) :
    ∀ (l : List α) (prev : α),
      List.Chain (fun u v => cmp v u < 0) prev (takeRun cmp true prev l).1 := by
  intro l
  induction l with
  | nil => intro prev; exact List.Chain.nil
  | cons x xs ih =>
    intro prev
    simp only [takeRun]
    split
    · next h => exact List.Chain.cons h (ih x)
    · exact List.Chain.nil

theorem takeRun_chain_asc (cmp : α → α → Int) :
    ∀ (l : List α) (prev : α),
      List.Chain (fun u v => 0 ≤ cmp v u) prev (takeRun cmp false prev l).1 := by
  intro l
  induction l with
  | nil => intro prev; exact List.Chain.nil
  | cons x xs ih =>
    intro prev
    simp only [takeRun]
    split
    · next h => exact List.Chain.cons h (ih x)
    · exact List.Chain.nil

theorem binInsert_perm (cmp : α → α → Int) (p : α) :
    ∀ l : List α, (binInsert cmp p l).Perm (p :: l) := by
  intro l
  induction l with
  | nil => exact List.Perm.refl _
  | cons q qs ih =>
    simp only [binInsert]
    split
    · exact List.Perm.refl _
    · exact (ih.cons q).trans (List.Perm.swap p q qs)

theorem foldl_binInsert_perm (cmp : α → α → Int) :
    ∀ (rest init : List α),
      (rest.foldl (fun acc x => binInsert cmp x acc) init).Perm
        (init ++ rest) := by
  intro rest
  induction rest with
  | nil => intro init; simp
  | cons x xs ih =>
    intro init
    have h1 := ih (binInsert cmp x init)
    have h2 : (binInsert cmp x init ++ xs).Perm ((x :: init) ++ xs) :=
      (binInsert_perm cmp x init).append_right xs
    have h3 : (init ++ x :: xs).Perm (x :: (init ++ xs)) := List.perm_middle
    exact (h1.trans (h2.trans (List.Perm.refl _))).trans h3.symm

theorem v8sort_perm (cmp : α → α → Int) (l : List α) :
    (v8sort cmp l).Perm l := by
  match l with
  | [] => exact List.Perm.refl _
  | [a] => exact List.Perm.refl _
  | a :: b :: rest =>
    simp only [v8sort]
    split
    · have h1 := foldl_binInsert_perm cmp (takeRun cmp true b rest).2
        (a :: b :: (takeRun cmp true b rest).1).reverse
      have h2 : ((a :: b :: (takeRun cmp true b rest).1).reverse ++
            (takeRun cmp true b rest).2).Perm
          ((a :: b :: (takeRun cmp true b rest).1) ++
            (takeRun cmp true b rest).2) :=
        (List.reverse_perm _).append_right _
      have h3 : (a :: b :: (takeRun cmp true b rest).1) ++
          (takeRun cmp true b rest).2 = a :: b :: rest := by
        simp [takeRun_append]
      exact (h1.trans h2).trans (h3 ▸ List.Perm.refl _)
    · have h1 := foldl_binInsert_perm cmp (takeRun cmp false b rest).2
        (a :: b :: (takeRun cmp false b rest).1)
      have h3 : (a :: b :: (takeRun cmp false b rest).1) ++
          (takeRun cmp false b rest).2 = a :: b :: rest := by
        simp [takeRun_append]
      exact h1.trans (h3 ▸ List.Perm.refl _)

theorem binInsert_pairwise (p : Post) :
    ∀ l : List Post,
      (∀ q ∈ p :: l, q.date.isSome = true) →
      List.Pairwise dateGe l →
      List.Pairwise dateGe (binInsert cmpPosts p l) := by
  intro l
  induction l with
  | nil => intro _ _; exact List.pairwise_singleton _ _
  | cons q qs ih =>
    intro hsome hl
    simp only [binInsert]
    split
    · next hc =>
      have hpq : dateGe p q := (cmp_lt_iff p q).mp hc
      refine List.pairwise_cons.mpr ⟨?_, hl⟩
      intro x hx
      rcases List.mem_cons.mp hx with rfl | hx'
      · exact hpq
      · have hqx : dateGe q x := (List.pairwise_cons.mp hl).1 x hx'
        exact jsLt_false_trans
          (hsome p (List.mem_cons_self p _))
          (hsome q (List.mem_cons_of_mem p (List.mem_cons_self q _)))
          (hsome x (List.mem_cons_of_mem p (List.mem_cons_of_mem q hx')))
          hpq hqx
    · next hc =>
      have hlt : jsLt p.date q.date = true :=
        (cmp_ge_iff p q).mp (Int.not_lt.mp hc)
      refine List.pairwise_cons.mpr ⟨?_, ?_⟩
      · intro x hx
        have hx2 : x ∈ p :: qs := (binInsert_perm cmpPosts p qs).mem_iff.mp hx
        rcases List.mem_cons.mp hx2 with rfl | hx'
        · exact jsLt_asymm hlt
        · exact (List.pairwise_cons.mp hl).1 x hx'
      · refine ih ?_ (List.Pairwise.of_cons hl)
        intro z hz
        rcases List.mem_cons.mp hz with rfl | hz'
        · exact hsome z (List.mem_cons_self z _)
        · exact hsome z
            (List.mem_cons_of_mem p (List.mem_cons_of_mem q hz'))

theorem foldl_binInsert_pairwise :
    ∀ (rest init : List Post),
      (∀ p ∈ init ++ rest, p.date.isSome = true) →
      List.Pairwise dateGe init →
      List.Pairwise dateGe
        (rest.foldl (fun acc x => binInsert cmpPosts x acc) init) := by
  intro rest
  induction rest with
  | nil =>
    intro init _ hinit
    exact hinit
  | cons x xs ih =>
    intro init hsome hinit
    simp only [List.foldl_cons]
    refine ih (binInsert cmpPosts x init) ?_ ?_
    · intro p hp
      rcases List.mem_append.mp hp with hp' | hp'
      · have : p ∈ x :: init := (binInsert_perm cmpPosts x init).mem_iff.mp hp'
        rcases List.mem_cons.mp this with rfl | hp''
        · exact hsome p (List.mem_append.mpr (Or.inr (List.mem_cons_self p _)))
        · exact hsome p (List.mem_append.mpr (Or.inl hp''))
      · exact hsome p
          (List.mem_append.mpr (Or.inr (List.mem_cons_of_mem x hp')))
    · refine binInsert_pairwise x init ?_ hinit
      intro q hq
      rcases List.mem_cons.mp hq with rfl | hq'
      · exact hsome q (List.mem_append.mpr (Or.inr (List.mem_cons_self q _)))
      · exact hsome q (List.mem_append.mpr (Or.inl hq'))

/-- Sortedness of the modelled sort: when every record carries a date, the
output is pairwise non-increasing in publication date. -/
theorem v8sort_sorted (l : List Post)
    (h : ∀ p ∈ l, p.date.isSome = true) :
    List.Pairwise dateGe (v8sort cmpPosts l) := by
  match l with
  | [] => exact List.Pairwise.nil
  | [a] => exact List.pairwise_singleton _ _
  | a :: b :: rest =>
    simp only [v8sort]
    split
    · next hd =>
      -- descending-detected run, reversed in place
      have hchain : List.Chain' (fun u v => cmpPosts v u < 0)
          (a :: b :: (takeRun cmpPosts true b rest).1) :=
        List.Chain.cons hd (takeRun_chain_desc cmpPosts rest b)
      have hmemrun : ∀ x ∈ a :: b :: (takeRun cmpPosts true b rest).1,
          x ∈ a :: b :: rest := by
        intro x hx
        rcases List.mem_cons.mp hx with rfl | hx'
        · exact List.mem_cons_self _ _
        rcases List.mem_cons.mp hx' with rfl | hx''
        · exact List.mem_cons_of_mem _ (List.mem_cons_self _ _)
        · refine List.mem_cons_of_mem _ (List.mem_cons_of_mem _ ?_)
          rw [← takeRun_append cmpPosts true rest b]
          exact List.mem_append.mpr (Or.inl hx'')
      have hpair : List.Pairwise (fun u v => dateGe v u)
          (a :: b :: (takeRun cmpPosts true b rest).1) := by
        refine pairwise_of_chain' _
          (hchain.imp (fun u v hc => (cmp_lt_iff v u).mp hc)) ?_
        intro x hx y hy z hz h1 h2
        exact jsLt_false_trans (h z (hmemrun z hz)) (h y (hmemrun y hy))
          (h x (hmemrun x hx)) h2 h1
      have hrev : List.Pairwise dateGe
          (a :: b :: (takeRun cmpPosts true b rest).1).reverse :=
        List.pairwise_reverse.mpr hpair
      refine foldl_binInsert_pairwise _ _ ?_ hrev
      intro p hp
      rcases List.mem_append.mp hp with hp' | hp'
      · exact h p (hmemrun p (List.mem_reverse.mp hp'))
      · refine h p (List.mem_cons_of_mem _ (List.mem_cons_of_mem _ ?_))
        rw [← takeRun_append cmpPosts true rest b]
        exact List.mem_append.mpr (Or.inr hp')
    · next hd =>
      -- ascending-detected run, kept in place
      have hba : 0 ≤ cmpPosts b a := Int.not_lt.mp hd
      have hchain : List.Chain' (fun u v => 0 ≤ cmpPosts v u)
          (a :: b :: (takeRun cmpPosts false b rest).1) :=
        List.Chain.cons hba (takeRun_chain_asc cmpPosts rest b)
      have hstrict : List.Pairwise (fun u v => jsLt v.date u.date = true)
          (a :: b :: (takeRun cmpPosts false b rest).1) := by
        refine pairwise_of_chain' _
          (hchain.imp (fun u v hc => (cmp_ge_iff v u).mp hc)) ?_
        intro x _ y _ z _ h1 h2
        exact jsLt_trans h2 h1
      have hpair : List.Pairwise dateGe
          (a :: b :: (takeRun cmpPosts false b rest).1) :=
        hstrict.imp (fun huv => jsLt_asymm huv)
      refine foldl_binInsert_pairwise _ _ ?_ hpair
      have hmemrun : ∀ x ∈ a :: b :: (takeRun cmpPosts false b rest).1,
          x ∈ a :: b :: rest := by
        intro x hx
        rcases List.mem_cons.mp hx with rfl | hx'
        · exact List.mem_cons_self _ _
        rcases List.mem_cons.mp hx' with rfl | hx''
        · exact List.mem_cons_of_mem _ (List.mem_cons_self _ _)
        · refine List.mem_cons_of_mem _ (List.mem_cons_of_mem _ ?_)
          rw [← takeRun_append cmpPosts false rest b]
          exact List.mem_append.mpr (Or.inl hx'')
      intro p hp
      rcases List.mem_append.mp hp with hp' | hp'
      · exact h p (hmemrun p hp')
      · refine h p (List.mem_cons_of_mem _ (List.mem_cons_of_mem _ ?_))
        rw [← takeRun_append cmpPosts false rest b]
        exact List.mem_append.mpr (Or.inr hp')

/-! ### Feed lemmas -/

theorem foldl_addItem_items (f0 : Feed) (posts : List Post)
    (g : Post → FeedItemInput) :
    (posts.foldl (fun f post => f.addItem (g post)) f0).items =
      f0.items ++ posts.map g := by
  induction posts generalizing f0 with
  | nil => simp
  | cons p ps ih =>
    rw [List.foldl_cons, ih]
    simp [Feed.addItem]

theorem foldl_addItem_options (f0 : Feed) (posts : List Post)
    (g : Post → FeedItemInput) :
    (posts.foldl (fun f post => f.addItem (g post)) f0).options =
      f0.options := by
  induction posts generalizing f0 with
  | nil => rfl
  | cons p ps ih =>
    rw [List.foldl_cons, ih]
    rfl

theorem buildFeed_items (url : String) (posts : List Post) (now : Clock) :
    (buildFeed url posts now).items = posts.map (itemOfPost url) := by
  unfold buildFeed
  rw [foldl_addItem_items]
  rfl

theorem buildFeed_options (url : String) (posts : List Post) (now : Clock) :
    (buildFeed url posts now).options =
      { title := "Blog - Aaron Zuspan",
        description := "Blog posts on geospatial tech.",
        id := url, link := url,
        favicon := url ++ "/favicon.ico",
        copyright := "All rights reserved " ++ toString now.year ++
          ", Aaron Zuspan",
        rss2Link := url ++ "/rss.xml", jsonLink := url ++ "/rss.json",
        atomLink := url ++ "/atom.xml" } := by
  unfold buildFeed
  rw [foldl_addItem_options]

theorem buildBlogIndex_eq (files : List PostFile) (now : Clock) :
    buildBlogIndex files now =
      match getSortedPosts files with
      | .error e => .error e
      | .ok posts => .ok (generateRssFeed posts now) := by
  unfold buildBlogIndex
  cases getSortedPosts files <;> rfl

/-- The JSON-Feed document contains no clock-derived field. -/
theorem json1Doc_clock_free (url : String) (posts : List Post)
    (n1 n2 : Clock) :
    (buildFeed url posts n1).json1Doc = (buildFeed url posts n2).json1Doc := by
  simp [Feed.json1Doc, buildFeed_options, buildFeed_items]

/-- Whether `rss.json` is produced, and its bytes when it is, do not
depend on the clock. -/
theorem rssJson_clock_free (url : String) (posts : List Post)
    (n1 n2 : Clock) :
    (generateRssFeedWith url posts n1).rssJson =
      (generateRssFeedWith url posts n2).rssJson := by
  simp only [generateRssFeedWith]
  rw [json1Doc_clock_free url posts n1 n2]
  cases renderJson (buildFeed url posts n2).json1Doc with
  | error e => rfl
  | ok json =>
    cases renderAtom ((buildFeed url posts n1).atom1Doc n1) <;>
      cases renderAtom ((buildFeed url posts n2).atom1Doc n2) <;> rfl

/-! ## The claims -/

/-- **C9**: a file that does not begin with the opening frontmatter marker
is parsed as an empty metadata mapping with the entire file as body — a
degenerate but non-fatal result. -/
theorem c9_no_marker (s : String) (h : strStartsWith "---" s = false) :
    matter s = ⟨[], s⟩ := by
  unfold matter
  rw [h]
  rfl

/-- Witness for C9 at a concrete marker-less file. -/
theorem c9_no_marker_witness :
    matter "# A post\nwith no frontmatter" =
      ⟨[], "# A post\nwith no frontmatter"⟩ :=
  c9_no_marker "# A post\nwith no frontmatter" (by decide)

/-- **C5 counterexample**: the parser (gray-matter with default options,
as `posts.js` calls it) does *not* recognize the plus-delimited dialect:
the same fields that parse from the three-dash form come back as an empty
metadata mapping from the plus form, so the two dialects do not normalize
to the same record shape. -/
theorem c5_counterexample :
    (matter dashQuoted).data = [("title", "Post"), ("date", "2024-08-30")] ∧
    (matter plusFile).data = [] ∧
    (matter plusFile).data ≠ (matter dashQuoted).data := by decide

/-- **C5 (amended)**: only the three-dash form is recognized; within it,
quoted and unquoted scalar values normalize to the same fields; a
plus-delimited file is treated as having no frontmatter, with the whole
file as body. -/
theorem c5_amended :
    (matter dashQuoted).data = (matter dashUnquoted).data ∧
    (matter dashQuoted).data = [("title", "Post"), ("date", "2024-08-30")] ∧
    matter plusFile = ⟨[], plusFile⟩ := by decide

/-- **C4 counterexample**: an empty `tags` value does not yield an empty
sequence — `"".split(",")` is `[""]`, so the record's tag sequence is the
one-element sequence containing the empty string. -/
theorem c4_counterexample :
    (buildPost emptyTagsFile).toOption.map Post.tags = some [""] ∧
    (buildPost emptyTagsFile).toOption.map Post.tags ≠ some [] := by decide

/-- **C4 (amended)**: the `tags` metadata string is split on commas with
each element trimmed, preserving order (`"python, til"` yields
`["python", "til"]`); an empty `tags` value yields the one-element
sequence `[""]` rather than an empty sequence (and still no error). -/
theorem c4_amended :
    (∀ (f : PostFile) (t : String),
        getField (matter f.raw).data "tags" = some t →
        (buildPost f).toOption.map Post.tags =
          some ((jsSplit t ',').map jsTrim)) ∧
    (buildPost tagsFile).toOption.map Post.tags = some ["python", "til"] ∧
    (buildPost emptyTagsFile).toOption.map Post.tags = some [""] := by
  refine ⟨?_, by decide, by decide⟩
  intro f t h
  rw [buildPost_ok f t h]
  rfl

/-- Witness for the quantified part of C4 at the `"python, til"` file. -/
theorem c4_amended_witness :
    (buildPost tagsFile).toOption.map Post.tags =
      some ((jsSplit "python, til" ',').map jsTrim) :=
  c4_amended.1 tagsFile "python, til" (by decide)

set_option maxRecDepth 100000 in
/-- **C6 counterexample**: no `DateFormatError` exists anywhere in the
pipeline.  A file with `date: "not-a-date"` passes `getSortedPosts`
unvalidated (the string is stored as-is), and the build then fails in the
feed stage with a `RangeError` — after `rss.xml` was already written —
not with a `DateFormatError`. -/
theorem c6_counterexample :
    ((buildPost badDateFile).toOption.map Post.date =
      some (some "not-a-date")) ∧
    ((getSortedPosts [badDateFile]).toOption.isSome = true) ∧
    ((buildBlogIndex [badDateFile] buildClock).toOption.map
        (fun r => (r.rssXml.isSome, r.rssJson, r.atomXml, r.error)) =
      some (true, none, none,
        some (FeedError.rangeError "Invalid time value"))) := by
  decide

set_option maxRecDepth 100000 in
/-- **C6 (amended)**: the `date` field is never validated where the spec
places the check — `getSortedPosts` copies whatever string the
frontmatter carries verbatim into the record and succeeds, and no
`DateFormatError` exists.  The build does still fail on an unparseable
date, but later and differently: `new Date` on it is an Invalid Date, the
feed serializers throw a `RangeError` from `toISOString()`, `rss.json` is
never produced, and `rss.xml` has already been written by then. -/
theorem c6_amended :
    (∀ f : PostFile,
        (getField (matter f.raw).data "tags").isSome = true →
        (buildPost f).toOption.map Post.date =
          some (getField (matter f.raw).data "date")) ∧
    (∀ (url : String) (posts : List Post) (now : Clock) (p : Post),
        p ∈ posts → jsNewDate p.date = JsDate.invalid →
        (generateRssFeedWith url posts now).rssJson = none ∧
        (generateRssFeedWith url posts now).error.isSome = true) ∧
    ((buildBlogIndex [badDateFile] buildClock).toOption.map
        (fun r => (r.rssXml.isSome, r.error)) =
      some (true, some (FeedError.rangeError "Invalid time value"))) := by
  refine ⟨?_, ?_, by decide⟩
  · intro f h
    obtain ⟨t, ht⟩ := Option.isSome_iff_exists.mp h
    rw [buildPost_ok f t ht]
    rfl
  · intro url posts now p hp hinv
    have hmem : jsonItemOf (itemOfPost url p) ∈
        ((buildFeed url posts now).json1Doc).items := by
      simp only [Feed.json1Doc, buildFeed_items]
      exact List.mem_map_of_mem _ (List.mem_map_of_mem _ hp)
    have hitem : renderJsonItem (jsonItemOf (itemOfPost url p)) =
        .error (.rangeError "Invalid time value") := by
      simp [renderJsonItem, jsonItemOf, itemOfPost, hinv, isoStringOf]
    have herr : (mapExcept renderJsonItem
        ((buildFeed url posts now).json1Doc).items).toOption = none :=
      mapExcept_err _ _ _ hmem (by rw [hitem]; rfl)
    cases hm : mapExcept renderJsonItem
        ((buildFeed url posts now).json1Doc).items with
    | ok items =>
      rw [hm] at herr
      simp [Except.toOption] at herr
    | error e =>
      have hrj : renderJson (buildFeed url posts now).json1Doc =
          .error e := by
        rw [renderJson, hm]
      constructor <;> simp [generateRssFeedWith, hrj]

/-- Witness for C6: the unparseable-date file at the record stage, and a
concrete invalid-dated post at the feed stage. -/
theorem c6_amended_witness :
    ((buildPost badDateFile).toOption.map Post.date =
      some (getField (matter badDateFile.raw).data "date")) ∧
    ((generateRssFeedWith "https://example.com" [invalidDatePost]
        buildClock).rssJson = none ∧
      (generateRssFeedWith "https://example.com" [invalidDatePost]
        buildClock).error.isSome = true) :=
  ⟨c6_amended.1 badDateFile (by decide),
   c6_amended.2.1 "https://example.com" [invalidDatePost] buildClock
     invalidDatePost (by decide) (by decide)⟩

/-- **C10**: when a file's frontmatter has no `tags` field at all,
`getSortedPosts` fails with a type error (JS: calling `.split` on
`undefined`) instead of producing a record with an empty tag sequence —
`tags` is de facto required by the implementation. -/
theorem c10_missing_tags (files : List PostFile) (f : PostFile)
    (hmem : f ∈ files) (hmd : strSuffix ".md" f.filename = true)
    (htags : getField (matter f.raw).data "tags" = none) :
    ∃ msg, getSortedPosts files = .error (.typeError msg) := by
  have hf : f ∈ getPostPaths files :=
    List.mem_filter.mpr ⟨hmem, hmd⟩
  have herr : (mapExcept buildPost (getPostPaths files)).toOption = none := by
    apply mapExcept_err _ _ f hf
    rw [buildPost_err f htags]
    rfl
  rw [getSortedPosts_eq]
  cases hm : mapExcept buildPost (getPostPaths files) with
  | error e =>
    cases e with
    | typeError msg => exact ⟨msg, rfl⟩
  | ok posts =>
    rw [hm] at herr
    simp [Except.toOption] at herr

/-- Witness for C10 at a concrete tag-less corpus. -/
theorem c10_missing_tags_witness :
    ∃ msg, getSortedPosts [noTagsFile] = .error (.typeError msg) :=
  c10_missing_tags [noTagsFile] noTagsFile (by decide) (by decide) (by decide)

/-- **C7**: each of the three generated feed documents (RSS 2.0, Atom,
JSON-Feed) carries exactly one entry per index record, and the entry list
is the in-order image of the post index — no independent resort. -/
theorem c7_entry_count_order (url : String) (posts : List Post)
    (now : Clock) :
    (((buildFeed url posts now).rss2Doc now).entries =
        posts.map (fun p => rss2EntryOf (itemOfPost url p))) ∧
    (((buildFeed url posts now).atom1Doc now).entries =
        posts.map (fun p => atomEntryOf (itemOfPost url p))) ∧
    ((buildFeed url posts now).json1Doc.items =
        posts.map (fun p => jsonItemOf (itemOfPost url p))) ∧
    (((buildFeed url posts now).rss2Doc now).entries.length = posts.length) ∧
    (((buildFeed url posts now).atom1Doc now).entries.length = posts.length) ∧
    ((buildFeed url posts now).json1Doc.items.length = posts.length) := by
  have h := buildFeed_items url posts now
  refine ⟨?_, ?_, ?_, ?_, ?_, ?_⟩ <;>
    simp [Feed.rss2Doc, Feed.atom1Doc, Feed.json1Doc, h]

/-- **C8**: in every one of the three formats, the `i`-th entry's unique
ID and link are both `{baseURL}/blog/{identifier}` of the `i`-th post. -/
theorem c8_entry_id_link (url : String) (posts : List Post) (now : Clock)
    (i : Nat) (h : i < posts.length) :
    ((((buildFeed url posts now).rss2Doc now).entries[i]?).map
        (fun e => (e.guid, e.link)) =
      some (entryUrl url posts[i], entryUrl url posts[i])) ∧
    ((((buildFeed url posts now).atom1Doc now).entries[i]?).map
        (fun e => (e.id, e.link)) =
      some (entryUrl url posts[i], entryUrl url posts[i])) ∧
    (((buildFeed url posts now).json1Doc.items[i]?).map
        (fun e => (e.id, e.url)) =
      some (entryUrl url posts[i], entryUrl url posts[i])) := by
  have hitems := buildFeed_items url posts now
  refine ⟨?_, ?_, ?_⟩ <;>
    simp [Feed.rss2Doc, Feed.atom1Doc, Feed.json1Doc, hitems,
      rss2EntryOf, atomEntryOf, jsonItemOf, itemOfPost, entryUrl,
      List.getElem?_map, List.getElem?_eq_getElem, h]

/-- Witness for C8: identifier `foo` with base URL `https://example.com`
yields entry id and link `https://example.com/blog/foo` identically in all
three output formats. -/
theorem c8_entry_id_link_witness :
    ((((buildFeed "https://example.com" [fooPost] buildClock).rss2Doc
          buildClock).entries[0]?).map (fun e => (e.guid, e.link)) =
      some ("https://example.com/blog/foo",
        "https://example.com/blog/foo")) ∧
    ((((buildFeed "https://example.com" [fooPost] buildClock).atom1Doc
          buildClock).entries[0]?).map (fun e => (e.id, e.link)) =
      some ("https://example.com/blog/foo",
        "https://example.com/blog/foo")) ∧
    ((((buildFeed "https://example.com" [fooPost] buildClock).json1Doc
          ).items[0]?).map (fun e => (e.id, e.url)) =
      some ("https://example.com/blog/foo",
        "https://example.com/blog/foo")) := by
  have h := c8_entry_id_link "https://example.com" [fooPost] buildClock 0
    (by decide)
  refine ⟨?_, ?_, ?_⟩
  · rw [h.1]; decide
  · rw [h.2.1]; decide
  · rw [h.2.2]; decide

set_option maxRecDepth 100000 in
/-- **C3 counterexample**: running an unchanged, fully dated corpus
through the pipeline at two clock readings five seconds apart yields
different `rss.xml` bytes (the document embeds the build instant);
likewise, two runs in different years yield different bytes via the
copyright line.  So re-running the pipeline on unchanged inputs is not
byte-identical: the output has hidden timestamps. -/
theorem c3_counterexample :
    ((buildBlogIndex [c1FileB] clockT1).toOption.map FeedRun.rssXml ≠
      (buildBlogIndex [c1FileB] clockT2).toOption.map FeedRun.rssXml) ∧
    ((generateRssFeed [] ⟨2024, "T"⟩).rssXml ≠
      (generateRssFeed [] ⟨2025, "T"⟩).rssXml) := by
  decide

/-- **C3 (amended)**: the pipeline is a pure function of the input files
and the clock: with equal clock readings the whole run outcome is
identical, and the `rss.json` slot of the outcome — the bytes when every
post's date parses, `none` (file never written, serializer threw) when
some date is invalid — is clock-independent unconditionally; but
`rss.xml`/`atom.xml` embed the current year (copyright) and instant
(lastBuildDate/updated), so reruns at different times need not be
byte-identical. -/
theorem c3_amended :
    (∀ (files : List PostFile) (n1 n2 : Clock),
        n1.year = n2.year → n1.utcString = n2.utcString →
        buildBlogIndex files n1 = buildBlogIndex files n2) ∧
    (∀ (files : List PostFile) (n1 n2 : Clock),
        (buildBlogIndex files n1).toOption.map FeedRun.rssJson =
          (buildBlogIndex files n2).toOption.map FeedRun.rssJson) := by
  constructor
  · intro files n1 n2 hy hu
    have h12 : n1 = n2 := by
      cases n1; cases n2; simp_all
    rw [h12]
  · intro files n1 n2
    rw [buildBlogIndex_eq, buildBlogIndex_eq]
    cases getSortedPosts files with
    | error e => rfl
    | ok posts =>
      simp only [Except.toOption, Option.map_some]
      exact congrArg some (rssJson_clock_free _ posts n1 n2)

/-- Witness for C3: equal clock readings (written separately) give equal
output on a concrete, fully dated corpus. -/
theorem c3_amended_witness :
    buildBlogIndex [c1FileB] clockT1 = buildBlogIndex [c1FileB] clockT1B :=
  c3_amended.1 [c1FileB] clockT1 clockT1B (by decide) (by decide)

/-- **C1 counterexample**: on the spec's scenario corpus (dates
2024-01-01, 2024-06-01, 2024-06-01, titles `A`, `B`, `C`, enumerated in
that order) `getSortedPosts` does not return `[B, C, A]`.  The comparator
`(a, b) => a.date < b.date ? 1 : -1` never returns `0`, so it is not a
consistent comparison function and the tie order is not the stable-sort
order: the engine's run detection sees the whole corpus as one descending
run and reverses it, producing `[C, B, A]` — the equal-date posts in
reverse enumeration order. -/
theorem c1_counterexample :
    ((getSortedPosts c1Files).toOption.map (fun l => l.map Post.title) ≠
        some [some "B", some "C", some "A"]) ∧
    ((getSortedPosts c1Files).toOption.map (fun l => l.map Post.title) =
        some [some "C", some "B", some "A"]) := by
  decide

/-- **C1 (amended)**: `getSortedPosts` returns a permutation of the built
records sorted by publication date descending (non-strictly, whenever
every record carries a date), but equal-date records are *not* kept in
original enumeration order: the scenario corpus comes out `[C, B, A]`. -/
theorem c1_amended :
    (∀ l : List Post, (v8sort cmpPosts l).Perm l) ∧
    (∀ (files : List PostFile) (posts : List Post),
        (getSortedPosts files).toOption = some posts →
        (∀ p ∈ posts, p.date.isSome = true) →
        List.Pairwise dateGe posts) ∧
    ((getSortedPosts c1Files).toOption = some c1Sorted) := by
  refine ⟨fun l => v8sort_perm cmpPosts l, ?_, by decide⟩
  intro files posts hok hsome
  rw [getSortedPosts_eq] at hok
  cases hm : mapExcept buildPost (getPostPaths files) with
  | error e => rw [hm] at hok; simp [Except.toOption] at hok
  | ok built =>
    rw [hm] at hok
    simp only [Except.toOption] at hok
    obtain rfl : v8sort cmpPosts built = posts := by simpa using hok
    apply v8sort_sorted
    intro p hp
    exact hsome p ((v8sort_perm cmpPosts built).mem_iff.mpr hp)

/-- Witness for C1: the scenario output satisfies the amended sortedness
statement. -/
theorem c1_amended_witness :
    List.Pairwise dateGe c1Sorted :=
  c1_amended.2.1 c1Files c1Sorted (by decide) (by decide)

end Blog
